import Mathlib

set_option autoImplicit false

/-
Verification of the Luminar research-pipeline code against its specification.

The Python modules are shallowly embedded: pure functions become Lean
functions, external effects (file I/O, search engines, tokenizers, JSON
parsing) become explicit parameters or `Except` values, and dictionaries
become structures.  Machine-independent data (strings, token lists, counts)
is modelled with `String`, `List` and `Nat`.
-/

namespace Luminar

/-! ## graph/builder.py -/

/-- Mapping between conditional branch names and agent node identifiers,
from `PARALLEL_BRANCHES` in `src/graph/builder.py`. -/
def PARALLEL_BRANCHES : List (String × String) :=
  [("parallel_web", "web_researcher"),
   ("parallel_academic", "academic_researcher"),
   ("parallel_news", "news_analyzer"),
   ("parallel_social", "social_analyzer"),
   ("parallel_financial", "financial_analyzer"),
   ("parallel_perplexity", "perplexity_researcher"),
   ("parallel_youtube", "youtube_researcher")]

/-- `orchestrator_fan_out` from `src/graph/builder.py`.  The state's
`selected_agents` entry is modelled as `Option (List String)`; Python's
`state.get("selected_agents") or []` turns both a missing entry and an
empty list into `[]`. -/
def orchestrator_fan_out (selected_agents : Option (List String)) : List String :=
  let selected := selected_agents.getD []
  if selected.isEmpty then PARALLEL_BRANCHES.map Prod.fst
  else
    let branches := (PARALLEL_BRANCHES.filter (fun p => decide (p.2 ∈ selected))).map Prod.fst
    if branches.isEmpty then PARALLEL_BRANCHES.map Prod.fst
    else branches

/-- C1: if the requested agent list is non-empty and overlaps the static
branch table, `orchestrator_fan_out` returns exactly the branch keys whose
agents were requested; otherwise (empty request or no overlap) it returns
the full list of branch keys. -/
theorem orchestrator_fan_out_branch_selection (sel : Option (List String)) :
    ((sel.getD [] ≠ [] ∧ ∃ p ∈ PARALLEL_BRANCHES, p.2 ∈ sel.getD []) →
      ∀ k, k ∈ orchestrator_fan_out sel ↔
        ∃ a, (k, a) ∈ PARALLEL_BRANCHES ∧ a ∈ sel.getD [])
    ∧ ((sel.getD [] = [] ∨ ∀ p ∈ PARALLEL_BRANCHES, p.2 ∉ sel.getD []) →
      orchestrator_fan_out sel = PARALLEL_BRANCHES.map Prod.fst) := by
  constructor
  · rintro ⟨hne, p, hp, hmem⟩ k
    unfold orchestrator_fan_out
    have hne' : ¬ ((sel.getD []).isEmpty = true) := by
      simpa [List.isEmpty_iff] using hne
    rw [if_neg hne']
    have hfilter : p ∈ PARALLEL_BRANCHES.filter
        (fun q => decide (q.2 ∈ sel.getD [])) := by
      simp [List.mem_filter, hp, hmem]
    have hbr : ¬ (((PARALLEL_BRANCHES.filter
        (fun q => decide (q.2 ∈ sel.getD []))).map Prod.fst).isEmpty = true) := by
      simp [List.isEmpty_iff]
      exact ⟨p.1, p.2, by simpa using hfilter⟩
    rw [if_neg hbr]
    simp only [List.mem_map, List.mem_filter, decide_eq_true_eq]
    constructor
    · rintro ⟨⟨k', a⟩, ⟨hPB, hsel⟩, rfl⟩
      exact ⟨a, hPB, hsel⟩
    · rintro ⟨a, hPB, hsel⟩
      exact ⟨(k, a), ⟨hPB, hsel⟩, rfl⟩
  · intro h
    unfold orchestrator_fan_out
    rcases h with h | h
    · rw [if_pos (by simp [List.isEmpty_iff, h])]
    · by_cases hsel : sel.getD [] = []
      · rw [if_pos (by simp [List.isEmpty_iff, hsel])]
      · rw [if_neg (by simpa [List.isEmpty_iff] using hsel)]
        have : PARALLEL_BRANCHES.filter
            (fun q => decide (q.2 ∈ sel.getD [])) = [] := by
          rw [List.filter_eq_nil_iff]
          intro a ha
          simpa using h a ha
        rw [this]
        simp

/-- Witness for C1: requesting the web researcher selects `parallel_web`,
and an unknown agent falls back to the full branch list. -/
theorem orchestrator_fan_out_branch_selection_witness :
    "parallel_web" ∈ orchestrator_fan_out (some ["web_researcher"])
    ∧ orchestrator_fan_out (some ["unknown_agent"]) = PARALLEL_BRANCHES.map Prod.fst := by
  constructor
  · exact ((orchestrator_fan_out_branch_selection (some ["web_researcher"])).1
      ⟨by decide, ("parallel_web", "web_researcher"), by decide, by decide⟩
      "parallel_web").mpr ⟨"web_researcher", by decide, by decide⟩
  · exact (orchestrator_fan_out_branch_selection (some ["unknown_agent"])).2
      (Or.inr (by decide))

/-! ## agents/vector_pipeline.py — chunking -/

/-- `_CHUNK_SIZE_TOKENS` from `src/agents/vector_pipeline.py`. -/
def CHUNK_SIZE_TOKENS : Nat := 350

/-- `_CHUNK_OVERLAP_TOKENS` from `src/agents/vector_pipeline.py`. -/
def CHUNK_OVERLAP_TOKENS : Nat := 70

/-- The `while start < len(tokens)` loop of `_chunk_text`, at token level.
Each iteration takes the window `tokens[start : start + 350]`, stops after
the window that reaches the end of the stream, and otherwise advances
`start` to `end - 70` (Python's `max(0, end - 70)` coincides with natural
subtraction here). -/
def chunkLoop (tokens : List Nat) (start : Nat) : List (List Nat) :=
  if start < tokens.length then
    if tokens.length ≤ start + CHUNK_SIZE_TOKENS then
      [(tokens.drop start).take CHUNK_SIZE_TOKENS]
    else
      (tokens.drop start).take CHUNK_SIZE_TOKENS ::
        chunkLoop tokens (start + CHUNK_SIZE_TOKENS - CHUNK_OVERLAP_TOKENS)
  else []
termination_by tokens.length - start
decreasing_by simp [CHUNK_SIZE_TOKENS, CHUNK_OVERLAP_TOKENS]; omega

/-- `_chunk_text` from `src/agents/vector_pipeline.py`.  The token encoder
and decoder (`tiktoken` or the UTF-8 byte fallback) are external, so they
are passed as parameters. -/
def chunk_text (encode : String → List Nat) (decode : List Nat → String)
    (text : String) : List String :=
  let tokens := encode text
  if tokens.length ≤ CHUNK_SIZE_TOKENS then [text]
  else (chunkLoop tokens 0).map decode

/-- One unfolding of `chunkLoop` in the running case. -/
lemma chunkLoop_eq_of_lt (tokens : List Nat) (start : Nat)
    (h : start < tokens.length) :
    chunkLoop tokens start =
      if tokens.length ≤ start + CHUNK_SIZE_TOKENS then
        [(tokens.drop start).take CHUNK_SIZE_TOKENS]
      else
        (tokens.drop start).take CHUNK_SIZE_TOKENS ::
          chunkLoop tokens (start + CHUNK_SIZE_TOKENS - CHUNK_OVERLAP_TOKENS) := by
  rw [chunkLoop, if_pos h]

/-- Every chunk the loop produces is the token window starting `280·i`
after `start`, and all chunks but the last end strictly inside the
stream. -/
lemma chunkLoop_getElem (tokens : List Nat) :
    ∀ (n start : Nat), tokens.length - start ≤ n → start < tokens.length →
      ∀ i : Nat, i < (chunkLoop tokens start).length →
        (chunkLoop tokens start)[i]? =
          some ((tokens.drop (start + 280 * i)).take 350)
        ∧ (i + 1 < (chunkLoop tokens start).length →
            start + 280 * i + 350 < tokens.length) := by
  intro n
  induction n with
  | zero => intro start hn hlt; omega
  | succ n ih =>
    intro start hn hlt i h
    rw [chunkLoop_eq_of_lt tokens start hlt] at h ⊢
    by_cases hend : tokens.length ≤ start + CHUNK_SIZE_TOKENS
    · rw [if_pos hend] at h ⊢
      have hi : i = 0 := by simpa using h
      subst hi
      refine ⟨by simp [CHUNK_SIZE_TOKENS], ?_⟩
      intro hcontra
      simp at hcontra
    · rw [if_neg hend] at h ⊢
      have hstep : start + CHUNK_SIZE_TOKENS - CHUNK_OVERLAP_TOKENS = start + 280 := by
        simp [CHUNK_SIZE_TOKENS, CHUNK_OVERLAP_TOKENS]
      rw [hstep] at h ⊢
      cases i with
      | zero =>
        refine ⟨by simp [CHUNK_SIZE_TOKENS], ?_⟩
        intro _
        simp [CHUNK_SIZE_TOKENS] at hend
        omega
      | succ j =>
        have hlt' : start + 280 < tokens.length := by
          simp [CHUNK_SIZE_TOKENS] at hend; omega
        have hn' : tokens.length - (start + 280) ≤ n := by omega
        have hj : j < (chunkLoop tokens (start + 280)).length := by
          simpa using h
        have IH := ih (start + 280) hn' hlt' j hj
        have harith : start + 280 + 280 * j = start + 280 * (j + 1) := by ring
        rw [harith] at IH
        refine ⟨by rw [List.getElem?_cons_succ]; exact IH.1, ?_⟩
        intro hsucc
        exact IH.2 (by simpa using hsucc)

/-- C3: for texts longer than the 350-token window, `_chunk_text` produces
the decoded token windows starting at multiples of 280 = 350 − 70; every
chunk except the last is exactly 350 tokens, the last is at most 350
tokens, and each consecutive pair of windows shares exactly the 70 tokens
that end one window and begin the next. -/
theorem chunk_text_overlap (encode : String → List Nat) (decode : List Nat → String)
    (text : String) (hlong : CHUNK_SIZE_TOKENS < (encode text).length) :
    chunk_text encode decode text = (chunkLoop (encode text) 0).map decode
    ∧ (∀ (i : Nat) (h : i < (chunkLoop (encode text) 0).length),
        (chunkLoop (encode text) 0).get ⟨i, h⟩ =
          ((encode text).drop (280 * i)).take 350)
    ∧ (∀ (i : Nat) (h : i + 1 < (chunkLoop (encode text) 0).length),
        ((chunkLoop (encode text) 0).get
            ⟨i, Nat.lt_of_succ_lt h⟩).length = 350)
    ∧ (∀ (i : Nat) (h : i + 1 < (chunkLoop (encode text) 0).length),
        ((chunkLoop (encode text) 0).get ⟨i, Nat.lt_of_succ_lt h⟩).drop 280 =
          ((chunkLoop (encode text) 0).get ⟨i + 1, h⟩).take 70
        ∧ (((chunkLoop (encode text) 0).get
            ⟨i, Nat.lt_of_succ_lt h⟩).drop 280).length = 70)
    ∧ (∀ (i : Nat) (h : i < (chunkLoop (encode text) 0).length),
        ((chunkLoop (encode text) 0).get ⟨i, h⟩).length ≤ 350) := by
  set tokens := encode text with htok
  have hpos : 0 < tokens.length := by
    have : CHUNK_SIZE_TOKENS = 350 := rfl
    omega
  have key := chunkLoop_getElem tokens tokens.length 0 (by omega) hpos
  have hget : ∀ (i : Nat) (h : i < (chunkLoop tokens 0).length),
      (chunkLoop tokens 0).get ⟨i, h⟩ = (tokens.drop (280 * i)).take 350 := by
    intro i h
    have h1 := (key i h).1
    rw [List.getElem?_eq_getElem h] at h1
    rw [List.get_eq_getElem]
    simpa using h1
  have hinner : ∀ (i : Nat), i + 1 < (chunkLoop tokens 0).length →
      280 * i + 350 < tokens.length := by
    intro i h
    simpa using (key i (Nat.lt_of_succ_lt h)).2 h
  have hlen : ∀ (i : Nat) (h : i + 1 < (chunkLoop tokens 0).length),
      ((chunkLoop tokens 0).get ⟨i, Nat.lt_of_succ_lt h⟩).length = 350 := by
    intro i h
    rw [hget i (Nat.lt_of_succ_lt h)]
    have := hinner i h
    simp only [List.length_take, List.length_drop]
    omega
  refine ⟨?_, hget, hlen, ?_, ?_⟩
  · rw [chunk_text]
    simp only [← htok]
    rw [if_neg (by omega)]
  · intro i h
    refine ⟨?_, ?_⟩
    · rw [hget i (Nat.lt_of_succ_lt h), hget (i + 1) h]
      rw [List.drop_take, List.drop_drop, List.take_take]
      have h1 : (350 : Nat) - 280 = 70 := by norm_num
      have h2 : 280 * i + 280 = 280 * (i + 1) := by ring
      rw [h1, h2]
      norm_num
    · rw [List.length_drop, hlen i h]
  · intro i h
    rw [hget i h]
    simp [List.length_take]

/-- Witness for C3: a 400-token text is split into overlapping windows. -/
theorem chunk_text_overlap_witness :
    chunk_text (fun _ => List.range 400) (fun _ => "t") "text" =
      (chunkLoop (List.range 400) 0).map (fun _ => "t") :=
  (chunk_text_overlap (fun _ => List.range 400) (fun _ => "t") "text"
    (by simp [CHUNK_SIZE_TOKENS])).1

/-- C2: a text whose encoded token length is within the 350-token window is
returned unchanged as a single chunk. -/
theorem chunk_text_short (encode : String → List Nat) (decode : List Nat → String)
    (text : String) (h : (encode text).length ≤ CHUNK_SIZE_TOKENS) :
    chunk_text encode decode text = [text] := by
  rw [chunk_text]
  simp only [if_pos h]

/-- Witness for C2: a five-token text is a single unchanged chunk. -/
theorem chunk_text_short_witness :
    chunk_text (fun s => s.data.map Char.toNat) (fun _ => "") "hello" = ["hello"] :=
  chunk_text_short (fun s => s.data.map Char.toNat) (fun _ => "") "hello" (by decide)

/-- C10: the chunking loop always terminates (the embedding is a total
function), the result is never empty, and the number of chunks is bounded:
starts advance by 280 = 350 − 70 tokens per chunk, so `280·(chunks − 1)`
never exceeds the token count. -/
theorem chunk_text_terminates (encode : String → List Nat)
    (decode : List Nat → String) (text : String) :
    chunk_text encode decode text ≠ []
    ∧ 280 * ((chunk_text encode decode text).length - 1) ≤ (encode text).length := by
  have hW : CHUNK_SIZE_TOKENS = 350 := rfl
  by_cases hshort : (encode text).length ≤ CHUNK_SIZE_TOKENS
  · rw [chunk_text]
    simp only [if_pos hshort]
    exact ⟨by simp, by simp⟩
  · have hpos : 0 < (encode text).length := by omega
    have hne : chunkLoop (encode text) 0 ≠ [] := by
      rw [chunkLoop_eq_of_lt _ _ hpos]
      split <;> simp
    rw [chunk_text]
    simp only [if_neg hshort]
    refine ⟨by simpa using hne, ?_⟩
    rw [List.length_map]
    rcases Nat.lt_or_ge (chunkLoop (encode text) 0).length 2 with h2 | h2
    · have h1 : (chunkLoop (encode text) 0).length - 1 = 0 := by omega
      rw [h1]
      simp
    · have hkey := chunkLoop_getElem (encode text) (encode text).length 0
        (by omega) hpos ((chunkLoop (encode text) 0).length - 2) (by omega)
      have := hkey.2 (by omega)
      omega

/-! ## SHA-256 (FIPS 180-4), the embedding of Python's `hashlib.sha256`

All words are `Nat` reduced modulo `2^32`; messages and digests are lists
of bytes (`Nat < 256`). -/

/-- Addition modulo `2^32`. -/
def add32 (a b : Nat) : Nat := (a + b) % 4294967296

/-- Rotate a 32-bit word right by `n` bits, reduced modulo `2^32`. -/
def rotr32 (x n : Nat) : Nat := ((x >>> n) ||| (x <<< (32 - n))) % 4294967296

/-- Bitwise complement of a 32-bit word. -/
def not32 (x : Nat) : Nat := x ^^^ 4294967295

/-- The SHA-256 `Ch` function. -/
def shaCh (x y z : Nat) : Nat := (x &&& y) ^^^ (not32 x &&& z)

/-- The SHA-256 `Maj` function. -/
def shaMaj (x y z : Nat) : Nat := (x &&& y) ^^^ (x &&& z) ^^^ (y &&& z)

/-- The SHA-256 `Σ₀` function. -/
def bigSigma0 (x : Nat) : Nat := rotr32 x 2 ^^^ rotr32 x 13 ^^^ rotr32 x 22

/-- The SHA-256 `Σ₁` function. -/
def bigSigma1 (x : Nat) : Nat := rotr32 x 6 ^^^ rotr32 x 11 ^^^ rotr32 x 25

/-- The SHA-256 `σ₀` function. -/
def smallSigma0 (x : Nat) : Nat := rotr32 x 7 ^^^ rotr32 x 18 ^^^ (x >>> 3)

/-- The SHA-256 `σ₁` function. -/
def smallSigma1 (x : Nat) : Nat := rotr32 x 17 ^^^ rotr32 x 19 ^^^ (x >>> 10)

/-- The 64 SHA-256 round constants of FIPS 180-4 §4.2.2 (the fractional
parts of the cube roots of the first 64 primes), written in decimal. -/
def sha256K : List Nat :=
  [1116352408, 1899447441, 3049323471, 3921009573,
   961987163, 1508970993, 2453635748, 2870763221,
   3624381080, 310598401, 607225278, 1426881987,
   1925078388, 2162078206, 2614888103, 3248222580,
   3835390401, 4022224774, 264347078, 604807628,
   770255983, 1249150122, 1555081692, 1996064986,
   2554220882, 2821834349, 2952996808, 3210313671,
   3336571891, 3584528711, 113926993, 338241895,
   666307205, 773529912, 1294757372, 1396182291,
   1695183700, 1986661051, 2177026350, 2456956037,
   2730485921, 2820302411, 3259730800, 3345764771,
   3516065817, 3600352804, 4094571909, 275423344,
   430227734, 506948616, 659060556, 883997877,
   958139571, 1322822218, 1537002063, 1747873779,
   1955562222, 2024104815, 2227730452, 2361852424,
   2428436474, 2756734187, 3204031479, 3329325298]

/-- The SHA-256 initial hash value of FIPS 180-4 §5.3.3, in decimal. -/
def sha256H0 : List Nat :=
  [1779033703, 3144134277, 1013904242, 2773480762,
   1359893119, 2600822924, 528734635, 1541459225]

/-- Big-endian byte decomposition of a word. -/
def toBytesBE (w len : Nat) : List Nat :=
  (List.range len).map (fun i => (w >>> (8 * (len - 1 - i))) % 256)

/-- Big-endian word composition from bytes. -/
def wordOfBytes (bs : List Nat) : Nat := bs.foldl (fun acc b => acc * 256 + b) 0

/-- SHA-256 padding: a `0x80` byte, zeros up to 56 mod 64, then the
64-bit big-endian bit length. -/
def sha256Pad (msg : List Nat) : List Nat :=
  msg ++ [128] ++ List.replicate ((119 - msg.length % 64) % 64) 0
    ++ toBytesBE (8 * msg.length) 8

/-- Split a byte list into 64-byte blocks (structural recursion on a fuel
bound so that the definition reduces; the fuel `l.length` always
suffices because every step consumes 64 > 0 bytes). -/
def chunks64Go : Nat → List Nat → List (List Nat)
  | 0, _ => []
  | _, [] => []
  | fuel + 1, l => l.take 64 :: chunks64Go fuel (l.drop 64)

/-- Split a byte list into 64-byte blocks. -/
def chunks64 (l : List Nat) : List (List Nat) := chunks64Go l.length l

/-- The first 16 words of the message schedule, read from the block. -/
def initW (block : List Nat) : List Nat :=
  (List.range 16).map (fun i => wordOfBytes ((block.drop (4 * i)).take 4))

/-- Extend the message schedule by `n` further words. -/
def extendW : List Nat → Nat → List Nat
  | w, 0 => w
  | w, n + 1 =>
    extendW (w ++ [add32 (add32 (smallSigma1 (w.getD (w.length - 2) 0))
        (w.getD (w.length - 7) 0))
      (add32 (smallSigma0 (w.getD (w.length - 15) 0))
        (w.getD (w.length - 16) 0))]) n

/-- One round of the SHA-256 compression function. -/
def compressStep (st : List Nat) (kw : Nat × Nat) : List Nat :=
  match st with
  | [a, b, c, d, e, f, g, h] =>
    let t1 := add32 h (add32 (bigSigma1 e) (add32 (shaCh e f g) (add32 kw.1 kw.2)))
    let t2 := add32 (bigSigma0 a) (shaMaj a b c)
    [add32 t1 t2, a, b, c, add32 d t1, e, f, g]
  | st => st

/-- Process one 64-byte block, updating the running hash value. -/
def processBlock (hs block : List Nat) : List Nat :=
  let w := extendW (initW block) 48
  let st := (sha256K.zip w).foldl compressStep hs
  (hs.zip st).map (fun p => add32 p.1 p.2)

/-- SHA-256 of a byte list, as a 32-byte digest. -/
def sha256 (msg : List Nat) : List Nat :=
  ((chunks64 (sha256Pad msg)).foldl processBlock sha256H0).flatMap
    (fun w => toBytesBE w 4)

/-- Lower-case hex character for a nibble. -/
def hexChar (n : Nat) : Char :=
  if n < 10 then Char.ofNat (48 + n) else Char.ofNat (87 + n)

/-- Two lower-case hex characters for a byte. -/
def hexByte (b : Nat) : List Char := [hexChar (b / 16), hexChar (b % 16)]

/-- Python's `bytes.hex()` / `hashlib`'s `hexdigest` over a byte list. -/
def hexdigest (bs : List Nat) : String := String.mk (bs.flatMap hexByte)

/-- UTF-8 encoding of a single character. -/
def utf8Char (c : Char) : List Nat :=
  let n := c.toNat
  if n < 128 then [n]
  else if n < 2048 then [192 ||| (n >>> 6), 128 ||| (n &&& 63)]
  else if n < 65536 then
    [224 ||| (n >>> 12), 128 ||| ((n >>> 6) &&& 63), 128 ||| (n &&& 63)]
  else
    [240 ||| (n >>> 18), 128 ||| ((n >>> 12) &&& 63),
     128 ||| ((n >>> 6) &&& 63), 128 ||| (n &&& 63)]

/-- UTF-8 encoding of a string, Python's `str.encode("utf-8")`. -/
def utf8 (s : String) : List Nat := s.data.flatMap utf8Char

/-- FIPS 180-4 test vector for the SHA-256 embedding. -/
theorem sha256_test_vector :
    hexdigest (sha256 (utf8 "abc")) =
      "ba7816bf8f01cfea414140de5dae2223b00361a396177a9cb410ff61f20015ad" := by
  decide

/-! ## agents/vector_pipeline.py — record ids -/

/-- A chunk dictionary as assembled by `_collect_text_chunks` in
`src/agents/vector_pipeline.py` (keys `agent`, `source`, `metadata`,
`original_index`, `chunk_index`, `text`, `token_count`). -/
structure Chunk where
  agent : String
  source : String
  metadata : String
  original_index : Nat
  chunk_index : Nat
  text : String
  token_count : Nat
deriving DecidableEq

/-- The f-string `base` built inside `_record_id`:
`agent::source::original_index::chunk_index::text`. -/
def record_base (c : Chunk) : String :=
  c.agent ++ "::" ++ c.source ++ "::" ++ toString c.original_index
    ++ "::" ++ toString c.chunk_index ++ "::" ++ c.text

/-- `_record_id` from `src/agents/vector_pipeline.py`:
`hashlib.sha256(base.encode("utf-8")).hexdigest()`. -/
def record_id (c : Chunk) : String := hexdigest (sha256 (utf8 (record_base c)))

/-- Every byte of a SHA-256 digest is below 256. -/
lemma sha256_bytes_lt (msg : List Nat) : ∀ b ∈ sha256 msg, b < 256 := by
  intro b hb
  rw [sha256] at hb
  rw [List.mem_flatMap] at hb
  obtain ⟨w, -, hw⟩ := hb
  rw [toBytesBE, List.mem_map] at hw
  obtain ⟨i, -, hi⟩ := hw
  omega

/-- Inverse of `hexChar` on hex digits. -/
def unhexChar (c : Char) : Nat :=
  if 97 ≤ c.toNat then c.toNat - 87 else c.toNat - 48

/-- Recover a byte from the first two characters of a hex string. -/
def unhexTwo (cs : List Char) : Nat :=
  match cs with
  | c1 :: c2 :: _ => unhexChar c1 * 16 + unhexChar c2
  | _ => 0

set_option maxRecDepth 4096 in
/-- `hexByte` is inverted by `unhexTwo` on every byte. -/
lemma unhexTwo_hexByte : ∀ b : Nat, b < 256 → unhexTwo (hexByte b) = b := by
  decide

/-- Hex encoding is injective on byte lists. -/
lemma hexByte_flatMap_inj :
    ∀ l₁ l₂ : List Nat, (∀ b ∈ l₁, b < 256) → (∀ b ∈ l₂, b < 256) →
      l₁.flatMap hexByte = l₂.flatMap hexByte → l₁ = l₂ := by
  intro l₁
  induction l₁ with
  | nil =>
    intro l₂ _ _ heq
    cases l₂ with
    | nil => rfl
    | cons b bs => simp [hexByte] at heq
  | cons a as ih =>
    intro l₂ h1 h2 heq
    cases l₂ with
    | nil => simp [hexByte] at heq
    | cons b bs =>
      simp only [List.flatMap_cons, hexByte, List.cons_append, List.nil_append,
        List.cons.injEq] at heq
      obtain ⟨hc1, hc2, hrest⟩ := heq
      have ha := unhexTwo_hexByte a (h1 a (List.mem_cons_self a as))
      have hb := unhexTwo_hexByte b (h2 b (List.mem_cons_self b bs))
      simp only [hexByte, unhexTwo] at ha hb
      rw [hc1, hc2] at ha
      have hab : a = b := by omega
      have htail : as = bs := by
        refine ih bs (fun x hx => h1 x (List.mem_cons_of_mem a hx))
          (fun x hx => h2 x (List.mem_cons_of_mem b hx)) ?_
        simpa [hexByte] using hrest
      rw [hab, htail]

/-- `hexdigest` is injective on byte lists, so equal record ids force equal
digests. -/
lemma hexdigest_inj {l₁ l₂ : List Nat} (h1 : ∀ b ∈ l₁, b < 256)
    (h2 : ∀ b ∈ l₂, b < 256) (heq : hexdigest l₁ = hexdigest l₂) : l₁ = l₂ := by
  apply hexByte_flatMap_inj l₁ l₂ h1 h2
  simpa [hexdigest] using congrArg String.data heq

/-- Appending to a common prefix is cancellative for strings. -/
lemma string_append_left_cancel {s t₁ t₂ : String}
    (h : s ++ t₁ = s ++ t₂) : t₁ = t₂ := by
  have hd : s.data ++ t₁.data = s.data ++ t₂.data := by
    have := congrArg String.data h
    simpa [String.data_append] using this
  exact String.ext (List.append_cancel_left hd)

/-- C4: `_record_id` is the hex SHA-256 of
`agent::source::original_index::chunk_index::text`; it is a pure function
of those five fields (the other chunk fields are ignored), identical
provenance and text always give identical ids, and chunks with equal
provenance but different text have different base strings — so their ids
can only coincide on a SHA-256 collision of the encoded bases. -/
theorem record_id_content_addressable :
    (∀ c : Chunk, record_id c = hexdigest (sha256 (utf8 (record_base c))))
    ∧ (∀ c₁ c₂ : Chunk, c₁.agent = c₂.agent → c₁.source = c₂.source →
        c₁.original_index = c₂.original_index → c₁.chunk_index = c₂.chunk_index →
        c₁.text = c₂.text → record_id c₁ = record_id c₂)
    ∧ (∀ c₁ c₂ : Chunk, c₁.agent = c₂.agent → c₁.source = c₂.source →
        c₁.original_index = c₂.original_index → c₁.chunk_index = c₂.chunk_index →
        c₁.text ≠ c₂.text →
        record_base c₁ ≠ record_base c₂
        ∧ (record_id c₁ = record_id c₂ →
            sha256 (utf8 (record_base c₁)) = sha256 (utf8 (record_base c₂)))) := by
  refine ⟨fun c => rfl, ?_, ?_⟩
  · intro c₁ c₂ hag hsrc hoi hci htext
    rw [record_id, record_id, record_base, record_base, hag, hsrc, hoi, hci, htext]
  · intro c₁ c₂ hag hsrc hoi hci htext
    constructor
    · rw [record_base, record_base, hag, hsrc, hoi, hci]
      intro heq
      exact htext (string_append_left_cancel heq)
    · intro heq
      exact hexdigest_inj (sha256_bytes_lt _) (sha256_bytes_lt _) heq

/-- Witness for C4: two chunks that differ only in `metadata` and
`token_count` share an id, and equal provenance with different texts gives
different base strings. -/
theorem record_id_content_addressable_witness :
    record_id ⟨"web_results", "serpapi", "m1", 0, 1, "alpha", 5⟩ =
      record_id ⟨"web_results", "serpapi", "m2", 0, 1, "alpha", 9⟩
    ∧ record_base ⟨"web_results", "serpapi", "m1", 0, 1, "alpha", 5⟩ ≠
      record_base ⟨"web_results", "serpapi", "m1", 0, 1, "beta", 5⟩ :=
  ⟨record_id_content_addressable.2.1
      ⟨"web_results", "serpapi", "m1", 0, 1, "alpha", 5⟩
      ⟨"web_results", "serpapi", "m2", 0, 1, "alpha", 9⟩ rfl rfl rfl rfl rfl,
   (record_id_content_addressable.2.2
      ⟨"web_results", "serpapi", "m1", 0, 1, "alpha", 5⟩
      ⟨"web_results", "serpapi", "m1", 0, 1, "beta", 5⟩ rfl rfl rfl rfl
      (by decide)).1⟩

/-! ## agents/vector_pipeline.py — batch assembly and deduplication -/

/-- An index record assembled in `store_in_vector_db` before the batch is
written (`id`, `text`, `source`, `agent`, `metadata`, `chunk_index`,
`embedding`). -/
structure IndexRecord where
  id : String
  text : String
  source : String
  agent : String
  metadata : String
  chunk_index : Nat
  embedding : List Int
deriving DecidableEq

/-- Pandas `DataFrame.drop_duplicates(subset="id")` with the default
`keep="first"`: keep each row whose id has not appeared earlier. -/
def dropDuplicatesById : List IndexRecord → List IndexRecord
  | [] => []
  | r :: rs => r :: dropDuplicatesById (rs.filter (fun x => x.id != r.id))
termination_by l => l.length
decreasing_by
  simp only [List.length_cons]
  have := List.length_filter_le (fun x => x.id != r.id) rs
  omega

/-- The `records` list built in `store_in_vector_db` by zipping chunks
with their embeddings (`zip(chunks, embeddings, strict=True)`). -/
def buildRecords (chunks : List Chunk) (embeds : List (List Int)) : List IndexRecord :=
  (chunks.zip embeds).map (fun p =>
    { id := record_id p.1, text := p.1.text, source := p.1.source,
      agent := p.1.agent, metadata := p.1.metadata,
      chunk_index := p.1.chunk_index, embedding := p.2 })

/-- The deduplicated batch that `store_in_vector_db` writes to the table
(`pd.DataFrame(records).drop_duplicates(subset="id")`). -/
def store_batch (chunks : List Chunk) (embeds : List (List Int)) : List IndexRecord :=
  dropDuplicatesById (buildRecords chunks embeds)

/-- Deduplication only returns input records. -/
lemma dropDuplicatesById_subset :
    ∀ (n : Nat) (l : List IndexRecord), l.length ≤ n →
      ∀ r ∈ dropDuplicatesById l, r ∈ l := by
  intro n
  induction n with
  | zero =>
    intro l hl r hr
    have : l = [] := List.length_eq_zero.mp (Nat.le_zero.mp hl)
    subst this
    simp [dropDuplicatesById] at hr
  | succ n ih =>
    intro l hl r hr
    match l with
    | [] => simp [dropDuplicatesById] at hr
    | x :: xs =>
      rw [dropDuplicatesById] at hr
      rcases List.mem_cons.mp hr with h | h
      · exact h ▸ List.mem_cons_self x xs
      · have hlen : (xs.filter (fun a => a.id != x.id)).length ≤ n := by
          have := List.length_filter_le (fun a => a.id != x.id) xs
          simp only [List.length_cons] at hl
          omega
        have := ih _ hlen r h
        exact List.mem_cons_of_mem x (List.mem_of_mem_filter this)

/-- The ids in a deduplicated batch are pairwise distinct. -/
lemma dropDuplicatesById_nodup :
    ∀ (n : Nat) (l : List IndexRecord), l.length ≤ n →
      ((dropDuplicatesById l).map (fun r => r.id)).Nodup := by
  intro n
  induction n with
  | zero =>
    intro l hl
    have : l = [] := List.length_eq_zero.mp (Nat.le_zero.mp hl)
    subst this
    simp [dropDuplicatesById]
  | succ n ih =>
    intro l hl
    match l with
    | [] => simp [dropDuplicatesById]
    | x :: xs =>
      rw [dropDuplicatesById]
      have hlen : (xs.filter (fun a => a.id != x.id)).length ≤ n := by
        have := List.length_filter_le (fun a => a.id != x.id) xs
        simp only [List.length_cons] at hl
        omega
      rw [List.map_cons, List.nodup_cons]
      refine ⟨?_, ih _ hlen⟩
      intro hmem
      rw [List.mem_map] at hmem
      obtain ⟨r, hr, hid⟩ := hmem
      have hrf := dropDuplicatesById_subset n _ hlen r hr
      have := List.of_mem_filter hrf
      rw [hid] at this
      simp at this

/-- A find that succeeds on a filtered list (whose removed elements can
never match) also succeeds on the original list. -/
lemma find?_of_filter_find? :
    ∀ (xs : List IndexRecord) (y r : IndexRecord), r.id ≠ y.id →
      (xs.filter (fun x => x.id != y.id)).find? (fun x => x.id == r.id) = some r →
      xs.find? (fun x => x.id == r.id) = some r := by
  intro xs
  induction xs with
  | nil => intro y r _ h; simp at h
  | cons a as ih =>
    intro y r hry h
    by_cases hay : a.id = y.id
    · have hfa : (a.id != y.id) = false := by simp [hay]
      rw [List.filter_cons, hfa] at h
      simp only [Bool.false_eq_true, if_false] at h
      have har : (a.id == r.id) = false := by
        simp only [beq_eq_false_iff_ne]
        rw [hay]
        exact fun hc => hry hc.symm
      rw [@List.find?_cons_of_neg _ (fun x => x.id == r.id) a as (by simp [har])]
      exact ih y r hry h
    · have hfa : (a.id != y.id) = true := by simp [hay]
      rw [List.filter_cons, hfa] at h
      simp only [if_true] at h
      by_cases har : (a.id == r.id) = true
      · rw [@List.find?_cons_of_pos _ (fun x => x.id == r.id) a
          (as.filter (fun x => x.id != y.id)) har] at h
        rw [@List.find?_cons_of_pos _ (fun x => x.id == r.id) a as har]
        exact h
      · rw [@List.find?_cons_of_neg _ (fun x => x.id == r.id) a
          (as.filter (fun x => x.id != y.id)) har] at h
        rw [@List.find?_cons_of_neg _ (fun x => x.id == r.id) a as har]
        exact ih y r hry h

/-- Every record kept by deduplication is the first input record bearing
its id. -/
lemma dropDuplicatesById_first :
    ∀ (n : Nat) (l : List IndexRecord), l.length ≤ n →
      ∀ r ∈ dropDuplicatesById l, l.find? (fun x => x.id == r.id) = some r := by
  intro n
  induction n with
  | zero =>
    intro l hl r hr
    have : l = [] := List.length_eq_zero.mp (Nat.le_zero.mp hl)
    subst this
    simp [dropDuplicatesById] at hr
  | succ n ih =>
    intro l hl r hr
    match l with
    | [] => simp [dropDuplicatesById] at hr
    | x :: xs =>
      rw [dropDuplicatesById] at hr
      have hlen : (xs.filter (fun a => a.id != x.id)).length ≤ n := by
        have := List.length_filter_le (fun a => a.id != x.id) xs
        simp only [List.length_cons] at hl
        omega
      rcases List.mem_cons.mp hr with h | h
      · subst h
        exact @List.find?_cons_of_pos _ (fun a => a.id == r.id) r xs (by simp)
      · have hrx : r.id ≠ x.id := by
          have hrf := dropDuplicatesById_subset n _ hlen r h
          have := List.of_mem_filter hrf
          simpa using this
        rw [@List.find?_cons_of_neg _ (fun a => a.id == r.id) x xs
          (by simpa using fun hc => hrx hc.symm)]
        exact find?_of_filter_find? xs x r hrx (ih _ hlen r h)

/-- Every input id survives deduplication. -/
lemma dropDuplicatesById_covers :
    ∀ (n : Nat) (l : List IndexRecord), l.length ≤ n →
      ∀ r ∈ l, ∃ r' ∈ dropDuplicatesById l, r'.id = r.id := by
  intro n
  induction n with
  | zero =>
    intro l hl r hr
    have : l = [] := List.length_eq_zero.mp (Nat.le_zero.mp hl)
    subst this
    simp at hr
  | succ n ih =>
    intro l hl r hr
    match l with
    | [] => simp at hr
    | x :: xs =>
      rw [dropDuplicatesById]
      have hlen : (xs.filter (fun a => a.id != x.id)).length ≤ n := by
        have := List.length_filter_le (fun a => a.id != x.id) xs
        simp only [List.length_cons] at hl
        omega
      rcases List.mem_cons.mp hr with h | h
      · exact ⟨x, List.mem_cons_self _ _, by rw [h]⟩
      · by_cases hid : r.id = x.id
        · exact ⟨x, List.mem_cons_self _ _, hid.symm⟩
        · have hrf : r ∈ xs.filter (fun a => a.id != x.id) :=
            List.mem_filter.mpr ⟨h, by simpa using hid⟩
          obtain ⟨r', hr', hid'⟩ := ih _ hlen r hrf
          exact ⟨r', List.mem_cons_of_mem x hr', hid'⟩

/-- Appending records whose ids are already present does not change the
deduplicated batch. -/
lemma dropDuplicatesById_append :
    ∀ (n : Nat) (l₁ l₂ : List IndexRecord), l₁.length ≤ n →
      (∀ r ∈ l₂, ∃ r' ∈ l₁, r'.id = r.id) →
      dropDuplicatesById (l₁ ++ l₂) = dropDuplicatesById l₁ := by
  intro n
  induction n with
  | zero =>
    intro l₁ l₂ hl hcov
    have : l₁ = [] := List.length_eq_zero.mp (Nat.le_zero.mp hl)
    subst this
    match l₂ with
    | [] => rfl
    | r :: rs =>
      obtain ⟨r', hr', -⟩ := hcov r (List.mem_cons_self _ _)
      simp at hr'
  | succ n ih =>
    intro l₁ l₂ hl hcov
    match l₁ with
    | [] =>
      match l₂ with
      | [] => rfl
      | r :: rs =>
        obtain ⟨r', hr', -⟩ := hcov r (List.mem_cons_self _ _)
        simp at hr'
    | x :: xs =>
      rw [List.cons_append, dropDuplicatesById, dropDuplicatesById,
        List.filter_append]
      congr 1
      have hlen : (xs.filter (fun a => a.id != x.id)).length ≤ n := by
        have := List.length_filter_le (fun a => a.id != x.id) xs
        simp only [List.length_cons] at hl
        omega
      refine ih _ _ hlen ?_
      intro r hr
      have hrl₂ : r ∈ l₂ := List.mem_of_mem_filter hr
      have hrx : r.id ≠ x.id := by simpa using List.of_mem_filter hr
      obtain ⟨r', hr', hid'⟩ := hcov r hrl₂
      rcases List.mem_cons.mp hr' with h | h
      · exact absurd (h ▸ hid') (fun hc => hrx hc.symm)
      · exact ⟨r', List.mem_filter.mpr ⟨h, by simpa [hid'] using hrx⟩, hid'⟩

/-- C5: the batch written by `store_in_vector_db` has pairwise-distinct
ids; each kept record is the first input record with its id; every input
id is represented; and indexing the same chunks twice in one batch yields
the same batch as indexing them once. -/
theorem store_batch_first_wins (chunks : List Chunk) (embeds : List (List Int)) :
    ((store_batch chunks embeds).map (fun r => r.id)).Nodup
    ∧ (∀ r ∈ store_batch chunks embeds,
        (buildRecords chunks embeds).find? (fun x => x.id == r.id) = some r)
    ∧ (∀ r ∈ buildRecords chunks embeds,
        ∃ r' ∈ store_batch chunks embeds, r'.id = r.id)
    ∧ (chunks.length = embeds.length →
        store_batch (chunks ++ chunks) (embeds ++ embeds) = store_batch chunks embeds) := by
  refine ⟨dropDuplicatesById_nodup _ _ le_rfl,
    dropDuplicatesById_first _ _ le_rfl,
    dropDuplicatesById_covers _ _ le_rfl, ?_⟩
  intro hlen
  rw [store_batch, store_batch]
  have hzip : (chunks ++ chunks).zip (embeds ++ embeds) =
      chunks.zip embeds ++ chunks.zip embeds := by
    rw [List.zip_append hlen]
  have hbuild : buildRecords (chunks ++ chunks) (embeds ++ embeds) =
      buildRecords chunks embeds ++ buildRecords chunks embeds := by
    rw [buildRecords, buildRecords, hzip, List.map_append]
  rw [hbuild]
  exact dropDuplicatesById_append _ _ _ le_rfl
    (fun r hr => ⟨r, hr, rfl⟩)

/-- Witness for C5: duplicating a one-chunk batch leaves the stored batch
unchanged. -/
theorem store_batch_first_wins_witness :
    store_batch ([⟨"web_results", "serpapi", "m", 0, 0, "alpha", 1⟩] ++
        [⟨"web_results", "serpapi", "m", 0, 0, "alpha", 1⟩])
      ([[2]] ++ [[2]]) =
    store_batch [⟨"web_results", "serpapi", "m", 0, 0, "alpha", 1⟩] [[2]] :=
  (store_batch_first_wins
    [⟨"web_results", "serpapi", "m", 0, 0, "alpha", 1⟩] [[2]]).2.2.2 rfl

/-! ## agents/vector_pipeline.py — retrieval -/

/-- `_RETRIEVAL_TOP_K` from `src/agents/vector_pipeline.py`. -/
def RETRIEVAL_TOP_K : Nat := 12

/-- A row of the LanceDB table as selected by the query
(`text`, `source`, `agent`, `metadata`). -/
structure StoredRow where
  text : String
  source : String
  agent : String
  metadata : String
deriving DecidableEq

/-- A retrieval hit: the row text plus the merged metadata map
(`json.loads(row.metadata)` updated with the `source` and `agent`
columns).  The map is modelled as a lookup function. -/
structure RetrievalHit where
  text : String
  meta : String → Option String

/-- The semantic-search result bucket built by `retrieve_from_vector_db`
(the bucket's metadata keys `result_count` and `requested_top_k`, plus the
static table name). -/
structure RagBucket where
  name : String
  items : List RetrievalHit
  table : String
  result_count : Nat
  requested_top_k : Nat

/-- The `details` dictionary of a retrieval result: an error message or
the echoed query. -/
structure RagDetails where
  error : Option String
  query : Option String

/-- The `rag_result` bucket returned by `retrieve_from_vector_db`
(wall-clock `elapsed` and the constant `cost` are not modelled). -/
structure RagResult where
  sources : List RagBucket
  tokens : Nat
  details : RagDetails

/-- `retrieve_from_vector_db` from `src/agents/vector_pipeline.py`.
External pieces are parameters: `lancedb_available` models the import
check, `table` the opened table (`none` when unavailable) holding its
rows, `search` the vector search producing ranked rows for a query
(`.limit(top_k)` is the `take` below), `parse_metadata` the `json.loads`
view of a stored metadata string, and `encode` the token encoder.  The
state's topic is `Option String` (`state.get("topic", "")`). -/
def retrieve_from_vector_db :
    Bool → Option (List StoredRow) → (List StoredRow → String → List StoredRow) →
      (String → String → Option String) → (String → List Nat) →
      Option String → RagResult
  | false, _, _, _, _, _ =>
    { sources := [], tokens := 0,
      details := { error := some "lancedb package not installed", query := none } }
  | true, none, _, _, _, _ =>
    { sources := [], tokens := 0,
      details := { error := some "Vector store unavailable", query := none } }
  | true, some rows, search, parse_metadata, encode, topic =>
    if topic.getD "" = "" then
      { sources := [], tokens := 0,
        details := { error := some "Empty topic for retrieval", query := none } }
    else
      let results := (search rows (topic.getD "")).take RETRIEVAL_TOP_K
      let items : List RetrievalHit := results.map (fun row =>
        { text := row.text,
          meta := fun k =>
            if k = "source" then some row.source
            else if k = "agent" then some row.agent
            else parse_metadata row.metadata k })
      { sources := [{ name := "semantic_search", items := items,
                      table := "research_chunks",
                      result_count := items.length,
                      requested_top_k := RETRIEVAL_TOP_K }],
        tokens := (encode (topic.getD "")).length,
        details := { error := none, query := some (topic.getD "") } }

/-- C6: an empty or missing topic yields a structured result with no
sources and a non-empty error message, whatever the store contents; no
search result is consulted. -/
theorem retrieve_empty_topic (lancedb_available : Bool)
    (table : Option (List StoredRow))
    (search : List StoredRow → String → List StoredRow)
    (parse_metadata : String → String → Option String)
    (encode : String → List Nat)
    (topic : Option String)
    (htopic : topic = none ∨ topic = some "") :
    (retrieve_from_vector_db lancedb_available table search parse_metadata
        encode topic).sources = []
    ∧ ∃ e, (retrieve_from_vector_db lancedb_available table search
        parse_metadata encode topic).details.error = some e ∧ e ≠ "" := by
  rcases htopic with h | h <;> subst h <;>
    cases lancedb_available <;> rcases table with - | rows <;>
    exact ⟨rfl, _, rfl, by decide⟩

/-- Witness for C6: retrieval over a one-row store with an empty topic
returns no sources and an error. -/
theorem retrieve_empty_topic_witness :
    (retrieve_from_vector_db true (some [⟨"t", "s", "a", "m"⟩])
        (fun rows _ => rows) (fun _ _ => none) (fun _ => []) (some "")).sources = []
    ∧ ∃ e, (retrieve_from_vector_db true (some [⟨"t", "s", "a", "m"⟩])
        (fun rows _ => rows) (fun _ _ => none) (fun _ => [])
        (some "")).details.error = some e ∧ e ≠ "" :=
  retrieve_empty_topic true (some [⟨"t", "s", "a", "m"⟩]) (fun rows _ => rows)
    (fun _ _ => none) (fun _ => []) (some "") (Or.inr rfl)

/-- The property C7 asserts of every returned hit: the merged metadata has
non-empty entries for the stored source name and the collecting agent. -/
def hitHasNonemptyProvenance (h : RetrievalHit) : Prop :=
  (∃ s, h.meta "source" = some s ∧ s ≠ "")
  ∧ (∃ a, h.meta "agent" = some a ∧ a ≠ "")

/-- A retrieval run over a store holding one row whose `source` column is
the empty string. -/
def retrieveEmptySourceRun : RagResult :=
  retrieve_from_vector_db true (some [⟨"text", "", "web_results", "m"⟩])
    (fun rows _ => rows) (fun _ _ => none) (fun _ => []) (some "topic")

/-- The single hit of `retrieveEmptySourceRun`, with an empty merged
`source` entry. -/
def emptySourceHit : RetrievalHit :=
  { text := "text",
    meta := fun k =>
      if k = "source" then some ""
      else if k = "agent" then some "web_results"
      else none }

/-- The single bucket of `retrieveEmptySourceRun`. -/
def retrieveEmptySourceBucket : RagBucket :=
  { name := "semantic_search", items := [emptySourceHit],
    table := "research_chunks", result_count := 1, requested_top_k := 12 }

/-- Counterexample to C7 as stated: with an index containing a row whose
stored `source` field is empty, the returned hit's merged metadata has an
empty `source` entry, so not every hit carries non-empty provenance
entries. -/
theorem retrieve_nonempty_metadata_cex :
    ¬ (∀ b ∈ retrieveEmptySourceRun.sources, ∀ h ∈ b.items,
        hitHasNonemptyProvenance h) := by
  intro hall
  have hs : retrieveEmptySourceRun.sources = [retrieveEmptySourceBucket] := rfl
  have h1 := hall retrieveEmptySourceBucket
    (by rw [hs]; exact List.mem_singleton.mpr rfl)
    emptySourceHit (List.mem_singleton.mpr rfl)
  obtain ⟨⟨s, hs', hne⟩, -⟩ := h1
  have hval : emptySourceHit.meta "source" = some "" := rfl
  injection hval.symm.trans hs' with h2
  exact hne h2.symm

/-- C7 (amended): with the store reachable and a non-empty topic, the
result has a single `semantic_search` bucket with at most `top_K = 12`
hits, the bucket reports its item count and the requested `top_K`, every
hit's merged metadata carries the stored row's `source` and `agent`
values, and those entries are non-empty whenever the search returns table
rows whose stored fields are non-empty. -/
theorem retrieve_bound_and_merge (rows : List StoredRow)
    (search : List StoredRow → String → List StoredRow)
    (parse_metadata : String → String → Option String)
    (encode : String → List Nat)
    (topic : Option String)
    (htopic : topic.getD "" ≠ "") :
    ∃ b, (retrieve_from_vector_db true (some rows) search parse_metadata
        encode topic).sources = [b]
    ∧ b.name = "semantic_search"
    ∧ b.items.length ≤ RETRIEVAL_TOP_K
    ∧ b.result_count = b.items.length
    ∧ b.requested_top_k = RETRIEVAL_TOP_K
    ∧ (∀ h ∈ b.items,
        ∃ row ∈ (search rows (topic.getD "")).take RETRIEVAL_TOP_K,
          h.text = row.text
          ∧ h.meta "source" = some row.source
          ∧ h.meta "agent" = some row.agent)
    ∧ ((∀ r ∈ rows, r.source ≠ "" ∧ r.agent ≠ "") →
        (∀ r ∈ search rows (topic.getD ""), r ∈ rows) →
        ∀ h ∈ b.items, hitHasNonemptyProvenance h) := by
  simp only [retrieve_from_vector_db]
  rw [if_neg htopic]
  refine ⟨_, rfl, rfl, ?_, rfl, rfl, ?_, ?_⟩
  · simp
  · intro h hmem
    rw [List.mem_map] at hmem
    obtain ⟨row, hrow, rfl⟩ := hmem
    exact ⟨row, hrow, rfl, by simp, by simp⟩
  · intro hfields hsearch h hmem
    rw [List.mem_map] at hmem
    obtain ⟨row, hrow, rfl⟩ := hmem
    have hrow' : row ∈ rows := hsearch row (List.mem_of_mem_take hrow)
    obtain ⟨hsrc, hag⟩ := hfields row hrow'
    exact ⟨⟨row.source, by simp, hsrc⟩, ⟨row.agent, by simp, hag⟩⟩

/-- Witness for C7 (amended): a one-row store with non-empty fields. -/
theorem retrieve_bound_and_merge_witness :
    ∃ b, (retrieve_from_vector_db true (some [⟨"hello", "serpapi", "web_results", "m"⟩])
        (fun rows _ => rows) (fun _ _ => none) (fun _ => [])
        (some "ai")).sources = [b]
    ∧ b.name = "semantic_search"
    ∧ b.items.length ≤ RETRIEVAL_TOP_K
    ∧ b.result_count = b.items.length
    ∧ b.requested_top_k = RETRIEVAL_TOP_K
    ∧ (∀ h ∈ b.items,
        ∃ row ∈ ((fun (rows : List StoredRow) (_ : String) => rows)
            [⟨"hello", "serpapi", "web_results", "m"⟩] ((some "ai").getD "")).take
          RETRIEVAL_TOP_K,
          h.text = row.text
          ∧ h.meta "source" = some row.source
          ∧ h.meta "agent" = some row.agent)
    ∧ ((∀ r ∈ [(⟨"hello", "serpapi", "web_results", "m"⟩ : StoredRow)],
          r.source ≠ "" ∧ r.agent ≠ "") →
        (∀ r ∈ (fun (rows : List StoredRow) (_ : String) => rows)
            [⟨"hello", "serpapi", "web_results", "m"⟩] ((some "ai").getD ""),
          r ∈ [(⟨"hello", "serpapi", "web_results", "m"⟩ : StoredRow)]) →
        ∀ h ∈ b.items, hitHasNonemptyProvenance h) :=
  retrieve_bound_and_merge [⟨"hello", "serpapi", "web_results", "m"⟩]
    (fun rows _ => rows) (fun _ _ => none) (fun _ => []) (some "ai") (by decide)

/-! ## agents/data_archiver.py -/

/-- Whether a character survives `_slugify`'s `[^a-z0-9]` class after
lower-casing. -/
def isSlugChar (c : Char) : Bool :=
  (97 ≤ c.toNat && c.toNat ≤ 122) || (48 ≤ c.toNat && c.toNat ≤ 57)

/-- Collapse runs of underscores to a single underscore
(`re.sub(r"_+", "_", ...)`). -/
def collapseUnderscores (cs : List Char) : List Char :=
  cs.foldr (fun c acc =>
    if c = '_' ∧ acc.head? = some '_' then acc else c :: acc) []

/-- Python's `str.strip()`: drop whitespace from both ends. -/
def pyStrip (cs : List Char) : List Char :=
  ((cs.dropWhile (fun c => c.isWhitespace)).reverse.dropWhile
    (fun c => c.isWhitespace)).reverse

/-- `_slugify` from `src/agents/data_archiver.py`: strip, lower-case,
replace runs of non-`[a-z0-9]` characters with `_` (replacing each such
character and then collapsing runs is equivalent to replacing each run),
strip underscores, and default to `untitled`. -/
def slugify (value : String) : String :=
  let lowered := (pyStrip value.data).map Char.toLower
  let replaced := lowered.map (fun c => if isSlugChar c then c else '_')
  let stripped := ((collapseUnderscores replaced).dropWhile
    (fun c => c = '_')).reverse.dropWhile (fun c => c = '_') |>.reverse
  if stripped.isEmpty then "untitled" else String.mk stripped

/-- The dictionary `archive_state` returns on success. -/
structure ArchiveResult where
  archive_path : String
deriving DecidableEq

/-- `archive_state` from `src/agents/data_archiver.py`.  The filesystem
effects are parameters: `mkdir` is the result of
`_DATA_DIR.mkdir(parents=True, exist_ok=True)` and `write filename` the
result of opening and `json.dump`-ing the state; a Python exception is an
`Except.error`.  The UTC timestamp is a parameter, and the state's topic
is `Option String` (`state.get("topic", "research") or "research"`).
The function has no `try`/`except`, so effect errors propagate. -/
def archive_state (mkdir : Except String Unit)
    (write : String → Except String Unit)
    (timestamp : String) (topic : Option String) :
    Except String ArchiveResult := do
  let _ ← mkdir
  let topicStr := if topic.getD "research" = "" then "research" else topic.getD "research"
  let filename := timestamp ++ "_" ++ slugify topicStr ++ ".json"
  let _ ← write filename
  return { archive_path := "data/json/" ++ filename }

/-- C8 (refuting theorem): `archive_state` does not absorb failures — a
directory-creation or file-write error escapes the stage as the raised
exception instead of being recorded in the returned value; on success it
returns the timestamped, slug-named path. -/
theorem archive_state_propagates_exceptions :
    archive_state (Except.error "mkdir failed") (fun _ => Except.ok ())
        "20260101T000000Z" (some "My Topic!") = Except.error "mkdir failed"
    ∧ archive_state (Except.ok ()) (fun _ => Except.error "disk full")
        "20260101T000000Z" (some "My Topic!") = Except.error "disk full"
    ∧ archive_state (Except.ok ()) (fun _ => Except.ok ())
        "20260101T000000Z" (some "My Topic!") =
      Except.ok { archive_path := "data/json/20260101T000000Z_my_topic.json" } := by
  refine ⟨rfl, rfl, ?_⟩
  rfl

/-! ## agents/web_researcher.py and utils/structured_data.py -/

/-- A raw search item: a plain string or a dictionary, whose values are
modelled as optional strings looked up by key. -/
inductive RawItem where
  | str (s : String)
  | dict (lookup : String → Option String)

/-- A raw tool response: a list, a bare string, or anything else
(`_normalize_results` checks exactly these shapes). -/
inductive RawResults where
  | list (items : List RawItem)
  | str (s : String)
  | other

/-- One `tool.run(topic)` call: a normal return or a raised exception,
carried as its `str(exc)` message. -/
inductive ToolRun where
  | ok (raw : RawResults)
  | raises (msg : String)

/-- The unified record built by `build_structured_record` in
`src/utils/structured_data.py`. -/
structure StructuredRecord where
  published_date : Option String
  title : Option String
  authors : List String
  summary : Option String
  content : Option String
  source : Option String
  pdf_url : Option String
deriving DecidableEq

/-- Python's falsy-aware `a or b` on optional strings (both `None` and
`""` fall through). -/
def orFalsy (a b : Option String) : Option String :=
  match a with
  | some s => if s = "" then b else some s
  | none => b

/-- `_normalize_authors` from `src/utils/structured_data.py`, restricted
to the string-valued dictionary model: falsy input gives `[]`, a string
gives a singleton. -/
def normalize_authors (authors : Option String) : List String :=
  match authors with
  | none => []
  | some s => if s = "" then [] else [s]

/-- `_format_date` from `src/utils/structured_data.py`: `None` stays
`None`, a string is returned unchanged. -/
def format_date (value : Option String) : Option String := value

/-- `build_structured_record` from `src/utils/structured_data.py`. -/
def build_structured_record (title content summary source published_date
    authors pdf_url : Option String) : StructuredRecord :=
  { published_date := format_date published_date,
    title := title,
    authors := normalize_authors authors,
    summary := summary,
    content := content,
    source := source,
    pdf_url := pdf_url }

/-- `_normalize_results` from `src/agents/web_researcher.py`. -/
def normalize_results (results : RawResults) (limit : Nat) : List RawItem :=
  match results with
  | .list l => l.take limit
  | .str s => [RawItem.str s].take limit
  | .other => []

/-- `_structure_item` from `src/agents/web_researcher.py`, over the
string-valued dictionary model; Python's `or` fallback chains become
`orFalsy` chains. -/
def structure_item (item : RawItem) : StructuredRecord :=
  match item with
  | .dict lookup =>
    let title := orFalsy (lookup "title") (orFalsy (lookup "name") (lookup "headline"))
    let summary := orFalsy (lookup "summary")
      (orFalsy (lookup "snippet") (lookup "description"))
    let content := orFalsy (lookup "raw_content") (orFalsy (lookup "content")
      (orFalsy (lookup "full_content") (orFalsy (lookup "body")
        (orFalsy (lookup "text") (orFalsy summary title)))))
    let source := orFalsy (lookup "link") (orFalsy (lookup "url") (lookup "source"))
    let published := orFalsy (lookup "published") (orFalsy (lookup "published_date")
      (orFalsy (lookup "date") (lookup "datetime")))
    let authors := orFalsy (lookup "authors")
      (orFalsy (lookup "author") (lookup "byline"))
    let pdf_url := orFalsy (lookup "pdf_url") (lookup "pdf")
    build_structured_record title content summary source published authors pdf_url
  | .str s =>
    build_structured_record (some (String.mk (s.data.take 120))) (some s) (some s)
      none none none none

/-- `_structure_items` from `src/agents/web_researcher.py`. -/
def structure_items (items : List RawItem) : List StructuredRecord :=
  items.map structure_item

/-- The payload contract of `_fetch_tool_results`: structured items plus
an optional error message. -/
structure ToolPayload where
  items : List StructuredRecord
  error : Option String

/-- `_fetch_tool_results` from `src/agents/web_researcher.py`: a missing
(falsy) tool yields `tool_unavailable`, a raising tool yields its
`str(exc)` as the error, and a normal run yields structured items.  No
exception escapes. -/
def fetch_tool_results (tool : Option (String → ToolRun)) (topic : String)
    (limit : Nat) : ToolPayload :=
  match tool with
  | none => { items := [], error := some "tool_unavailable" }
  | some run =>
    match run topic with
    | .ok raw => { items := structure_items (normalize_results raw limit), error := none }
    | .raises msg => { items := [], error := some msg }

/-- One entry of the `sources` list built by `_build_source_payload`
(its metadata dictionary keys `limit`, `item_count` and the optional
`error` are flattened into fields). -/
structure SourceEntry where
  name : String
  items : List StructuredRecord
  limit : Nat
  item_count : Nat
  error : Option String

/-- `_build_source_payload` from `src/agents/web_researcher.py`. -/
def build_source_payload (name : String) (payload : ToolPayload)
    (limit : Nat) : SourceEntry :=
  { name := name, items := payload.items, limit := limit,
    item_count := payload.items.length, error := payload.error }

/-- The `web_results` bucket returned by `research_web` (wall-clock
`elapsed` and the constant `cost` are not modelled). -/
structure WebResults where
  sources : List SourceEntry
  tokens : Nat
  mode : String
  topic : String

/-- `research_web` from `src/agents/web_researcher.py`.  The three search
tools are parameters (`none` models a falsy tool object); the state's
`topic` and `mode` entries are `Option String`, and `mode` is the
function's default-`"extended"` keyword argument. -/
def research_web (serpapi_search tavily_search duckduckgo_search :
      Option (String → ToolRun))
    (topic state_mode : Option String) (mode : String) : WebResults :=
  let topicStr := topic.getD ""
  let mode_value := state_mode.getD mode
  let num_items := if mode_value = "simple" then 2 else 10
  { sources := [
      build_source_payload "serpapi"
        (fetch_tool_results serpapi_search topicStr num_items) num_items,
      build_source_payload "tavily"
        (fetch_tool_results tavily_search topicStr num_items) num_items,
      build_source_payload "duckduckgo"
        (fetch_tool_results duckduckgo_search topicStr num_items) num_items],
    tokens := 0,
    mode := mode_value,
    topic := topicStr }

/-- A run in which the first tool raises an exception whose string form is
empty (`str(Exception(""))` in Python is `""`). -/
def webEmptyMsgRun : WebResults :=
  research_web (some (fun _ => ToolRun.raises "")) none none (some "ai") none "extended"

/-- The serpapi source entry of `webEmptyMsgRun`. -/
def webEmptyMsgSerpapiEntry : SourceEntry :=
  { name := "serpapi", items := [], limit := 10, item_count := 0, error := some "" }

/-- Counterexample to C9 as stated: when the raising tool's exception has
an empty string form, the failing source entry's error field is the empty
string, so the entry does not carry a non-empty error. -/
theorem research_web_error_nonempty_cex :
    webEmptyMsgRun.sources.head?.map (fun e => e.error) = some (some "")
    ∧ ¬ (∀ e ∈ webEmptyMsgRun.sources, e.items = [] →
          ∃ m, e.error = some m ∧ m ≠ "") := by
  refine ⟨rfl, ?_⟩
  intro hall
  have hmem : webEmptyMsgSerpapiEntry ∈ webEmptyMsgRun.sources := by
    have h0 : webEmptyMsgRun.sources =
        webEmptyMsgSerpapiEntry :: webEmptyMsgRun.sources.tail := rfl
    rw [h0]
    exact List.mem_cons_self _ _
  obtain ⟨m, hm, hne⟩ := hall webEmptyMsgSerpapiEntry hmem rfl
  have hval : webEmptyMsgSerpapiEntry.error = some "" := rfl
  injection hval.symm.trans hm with h2
  exact hne h2.symm

/-- C9 (amended): when a tool raises, `research_web` still returns its
three-entry source list; the failing tool's entry has no items and
carries the exception's message as its error (non-empty exactly when the
message is), and the other entries are unaffected — they do not depend on
the failing slot's tool.  The statement covers each of the three slots. -/
theorem research_web_error_isolation
    (t2 t3 : Option (String → ToolRun)) (topic state_mode : Option String)
    (mode : String) (f : String → ToolRun) (msg : String)
    (hf : f (topic.getD "") = ToolRun.raises msg) :
    ((research_web (some f) t2 t3 topic state_mode mode).sources.map
        (fun e => e.name) = ["serpapi", "tavily", "duckduckgo"])
    ∧ (∃ e, (research_web (some f) t2 t3 topic state_mode mode).sources.head? = some e
        ∧ e.items = [] ∧ e.error = some msg ∧ (msg ≠ "" → e.error ≠ some ""))
    ∧ (∀ t1 t1' : Option (String → ToolRun),
        (research_web t1 t2 t3 topic state_mode mode).sources.tail =
          (research_web t1' t2 t3 topic state_mode mode).sources.tail)
    ∧ (∀ (t1 t3' : Option (String → ToolRun)) (g : String → ToolRun),
        g (topic.getD "") = ToolRun.raises msg →
        (∃ e, (research_web t1 (some g) t3' topic state_mode mode).sources[1]? = some e
          ∧ e.items = [] ∧ e.error = some msg)
        ∧ (∀ t2a t2b : Option (String → ToolRun),
            (research_web t1 t2a t3' topic state_mode mode).sources.head? =
              (research_web t1 t2b t3' topic state_mode mode).sources.head?
            ∧ (research_web t1 t2a t3' topic state_mode mode).sources[2]? =
              (research_web t1 t2b t3' topic state_mode mode).sources[2]?))
    ∧ (∀ (t1 t2' : Option (String → ToolRun)) (g : String → ToolRun),
        g (topic.getD "") = ToolRun.raises msg →
        (∃ e, (research_web t1 t2' (some g) topic state_mode mode).sources[2]? = some e
          ∧ e.items = [] ∧ e.error = some msg)
        ∧ (∀ t3a t3b : Option (String → ToolRun),
            (research_web t1 t2' t3a topic state_mode mode).sources.take 2 =
              (research_web t1 t2' t3b topic state_mode mode).sources.take 2)) := by
  have hfetchf : ∀ n, fetch_tool_results (some f) (topic.getD "") n =
      { items := [], error := some msg } := by
    intro n
    simp only [fetch_tool_results, hf]
  refine ⟨rfl, ?_, fun t1 t1' => rfl, ?_, ?_⟩
  · refine ⟨build_source_payload "serpapi"
        (fetch_tool_results (some f) (topic.getD "")
          (if state_mode.getD mode = "simple" then 2 else 10))
        (if state_mode.getD mode = "simple" then 2 else 10), rfl, ?_, ?_, ?_⟩
    · simp [hfetchf, build_source_payload]
    · simp [hfetchf, build_source_payload]
    · intro hmsg hc
      simp [hfetchf, build_source_payload] at hc
      exact hmsg hc
  · intro t1 t3' g hg
    have hfetchg : ∀ n, fetch_tool_results (some g) (topic.getD "") n =
        { items := [], error := some msg } := by
      intro n
      simp only [fetch_tool_results, hg]
    refine ⟨⟨build_source_payload "tavily"
        (fetch_tool_results (some g) (topic.getD "")
          (if state_mode.getD mode = "simple" then 2 else 10))
        (if state_mode.getD mode = "simple" then 2 else 10), rfl, ?_, ?_⟩,
      fun t2a t2b => ⟨rfl, rfl⟩⟩
    · simp [hfetchg, build_source_payload]
    · simp [hfetchg, build_source_payload]
  · intro t1 t2' g hg
    have hfetchg : ∀ n, fetch_tool_results (some g) (topic.getD "") n =
        { items := [], error := some msg } := by
      intro n
      simp only [fetch_tool_results, hg]
    refine ⟨⟨build_source_payload "duckduckgo"
        (fetch_tool_results (some g) (topic.getD "")
          (if state_mode.getD mode = "simple" then 2 else 10))
        (if state_mode.getD mode = "simple" then 2 else 10), rfl, ?_, ?_⟩,
      fun t3a t3b => rfl⟩
    · simp [hfetchg, build_source_payload]
    · simp [hfetchg, build_source_payload]

/-- Witness for C9 (amended): a concrete raising serpapi tool with message
`boom`, the other tools absent. -/
theorem research_web_error_isolation_witness :
    ((research_web (some (fun _ => ToolRun.raises "boom")) none none
        (some "ai") none "extended").sources.map
        (fun e => e.name) = ["serpapi", "tavily", "duckduckgo"])
    ∧ (∃ e, (research_web (some (fun _ => ToolRun.raises "boom")) none none
        (some "ai") none "extended").sources.head? = some e
        ∧ e.items = [] ∧ e.error = some "boom" ∧ ("boom" ≠ "" → e.error ≠ some "")) :=
  ⟨(research_web_error_isolation none none (some "ai") none "extended"
      (fun _ => ToolRun.raises "boom") "boom" rfl).1,
   (research_web_error_isolation none none (some "ai") none "extended"
      (fun _ => ToolRun.raises "boom") "boom" rfl).2.1⟩

end Luminar
